import Mathlib

/-!
Verification of the ZIHDAWG8 QCoDeS driver (`ZIHDAWG8.py`) against its
natural-language specification.

The driver's logic is shallowly embedded here:
* hardware reads performed by polling loops are modelled as explicit lists of
  the successive values the vendor module returns (one list element per issued
  read), so an unbounded busy-wait becomes structural recursion on the trace;
* the vendor session (`daq`) is modelled by recording the calls a getter or
  setter would issue rather than performing them;
* Python string primitives used by the program-text generator
  (`str.replace`, `str.format` with `{}` placeholders, string repetition)
  are given faithful executable models over `List Char`;
* the filesystem touched by `waveform_to_csv` is a record of existing
  directories and written files.
-/

namespace ZIHDAWG8

/-- Python's substring containment test `needle in hay` for strings. -/
def containsStr (hay needle : String) : Bool :=
  decide (List.IsInfix needle.data hay.data)

/-! ## Parameter-name derivation (`_generate_parameter_name`) -/

/-- Python's `str.split(sep)` for a one-character separator: the (possibly
empty) groups of characters between separator occurrences, in order. -/
def pySplit (sep : Char) : List Char → List (List Char)
  | [] => [[]]
  | c :: rest =>
    let r := pySplit sep rest
    if c = sep then [] :: r
    else
      match r with
      | [] => [[c]]
      | g :: gs => (c :: g) :: gs

/-- `_generate_parameter_name` from the source: `node.split('/')`, keep the
segments from index 2 on, join with `'_'`, lower-case the result. -/
def generate_parameter_name (node : String) : String :=
  let values := pySplit '/' node.data
  ⟨(List.intercalate ['_'] (values.drop 2)).map Char.toLower⟩

/-- The spec's wording of the derivation: drop the first two path segments
of the slash-delimited path and join the remainder with underscores,
lower-cased. -/
def derivedNameSpec (node : String) : String :=
  ⟨(List.intercalate ['_'] ((pySplit '/' node.data).drop 2)).map Char.toLower⟩

/-! ## Sequence-program upload (`upload_sequence_program`)

Each `getInt('awgModule/compiler/status')` call is one element consumed from
`statusReads`; each `getDouble('awgModule/progress')` call is one element
consumed from `progressReads` (progress values are modelled as rationals).
`none` models a run whose trace ends before the function finishes (the
busy-wait would still be polling). -/

/-- The first `while` loop of `upload_sequence_program`: keep reading the
compiler status while it equals the in-progress sentinel `-1`.  Returns the
remaining trace of status reads after the read that left the loop. -/
def pollUntilNotSentinel : List Int → Option (List Int)
  | [] => none
  | r :: rest => if r = -1 then pollUntilNotSentinel rest else some rest

/-- The second `while` loop of `upload_sequence_program`: keep reading the
progress fraction while it is `< 1.0`.  Returns the number of progress reads
issued. -/
def pollProgressCount : List ℚ → Option Nat
  | [] => none
  | p :: rest => if p < 1 then (· + 1) <$> pollProgressCount rest else some 1

/-- `upload_sequence_program`, as a function of the trace of compiler-status
reads, the compiler status string, and the trace of progress reads.  The
result pairs the outcome (`Except.error msg` for a raised exception,
`Except.ok code` for a normal return) with the number of progress reads
issued during the run. -/
def upload_sequence_program (statusReads : List Int) (statusstring : String)
    (progressReads : List ℚ) : Option (Except String Int × Nat) :=
  match pollUntilNotSentinel statusReads with
  | none => none
  | some rest =>
    match rest with
    | [] => none
    | s :: rest2 =>
      -- `if self.awg_module.getInt('awgModule/compiler/status') == 1: raise`
      if s = 1 then some (Except.error statusstring, 0)
      else
        match pollProgressCount progressReads with
        | none => none
        | some k =>
          match rest2 with
          | [] => none
          | c :: _ => some (Except.ok c, k)

/-! ## Session calls (`daq`) -/

/-- A write call issued against the vendor session, carrying the node path
and the value passed through unchanged. -/
inductive DaqWrite (α : Type) where
  | setInt (path : String) (value : α)
  | setDouble (path : String) (value : α)
  | setString (path : String) (value : α)
  | vectorWrite (path : String) (value : α)
  deriving DecidableEq, Repr

/-- A read call issued against the vendor session. -/
inductive DaqRead where
  | getInt (path : String)
  | getDouble (path : String)
  | getString (path : String)
  | vectorRead (path : String)
  deriving DecidableEq, Repr

/-- `_setter` from the source: dispatch on the declared-type string and issue
the matching session write; an unrecognized type falls through every branch
and issues no call.  The result is the list of write calls issued. -/
def _setter (name param_type : String) (value : α) : List (DaqWrite α) :=
  if param_type = "Integer (64 bit)" ∨ param_type = "Integer (enumerated)" then
    [DaqWrite.setInt name value]
  else if param_type = "Double" then [DaqWrite.setDouble name value]
  else if param_type = "String" then [DaqWrite.setString name value]
  else if param_type = "ZIVectorData" then [DaqWrite.vectorWrite name value]
  else []

/-- `_getter` from the source: dispatch on the declared-type string and issue
the matching session read; an unrecognized type falls through every branch,
issuing no call and returning Python's implicit `None` (here `none`). -/
def _getter (name param_type : String) : Option DaqRead :=
  if param_type = "Integer (64 bit)" ∨ param_type = "Integer (enumerated)" then
    some (DaqRead.getInt name)
  else if param_type = "Double" then some (DaqRead.getDouble name)
  else if param_type = "String" then some (DaqRead.getString name)
  else if param_type = "ZIVectorData" then some (DaqRead.vectorRead name)
  else none

/-! ## The parameter binder (`create_parameters_from_node_tree`) -/

/-- One entry of the device node tree, with the JSON attributes the binder
reads.  The `Type` attribute is called `Typ` (`Type` is reserved in Lean);
`Options` maps enumerated integer keys to their labels (the JSON keys are
decimal strings parsed with `int`, modelled here as already-parsed
integers). -/
structure SchemaEntry where
  Node : String
  Typ : String
  Properties : String
  Options : List (Int × String)
  Description : String
  Unit : String
  deriving DecidableEq, Repr

/-- A bound parameter as built by the binder loop.  The getter and setter are
partial applications of `_getter`/`_setter` to the node path and declared
type, so they are represented by those two captured strings; `vals` is the
optional enumerated-integer validator (the list of accepted values). -/
structure BoundParameter where
  get_cmd : Option (String × String)
  set_cmd : Option (String × String)
  vals : Option (List Int)
  docstring : String
  unit : String
  deriving DecidableEq, Repr

/-- The loop body of `create_parameters_from_node_tree` for one schema entry:
bind a getter iff `'Read' in Properties`, a setter iff `'Write' in
Properties`, an `Enum` validator over the integer keys of `Options` iff the
declared type is `'Integer (enumerated)'`, and derive the parameter name from
the node path. -/
def bindEntry (parameter : SchemaEntry) : String × BoundParameter :=
  let getter := if containsStr parameter.Properties "Read"
    then some (parameter.Node, parameter.Typ) else none
  let setter := if containsStr parameter.Properties "Write"
    then some (parameter.Node, parameter.Typ) else none
  let options := if parameter.Typ = "Integer (enumerated)"
    then some (parameter.Options.map Prod.fst) else none
  let parameter_name := generate_parameter_name parameter.Node
  (parameter_name,
   { get_cmd := getter, set_cmd := setter, vals := options,
     docstring := parameter.Description, unit := parameter.Unit })

/-- Modelled from the spec: `Instrument.add_parameter` (qcodes framework
code, not among this repository's sources) registers the accessor on the
driver under its derived name; per spec §4.1/§9 a later registration under a
colliding name silently overwrites the earlier binding (last-write-wins),
and binding completes without error. -/
def add_parameter (registry : List (String × BoundParameter))
    (kv : String × BoundParameter) : List (String × BoundParameter) :=
  match registry with
  | [] => [kv]
  | (k, v) :: rest =>
    if k = kv.1 then kv :: rest else (k, v) :: add_parameter rest kv

/-- `create_parameters_from_node_tree`: fold the binder loop over the schema
entries (Python iterates `parameters.values()`, here given as a list),
registering each bound parameter under its derived name. -/
def create_parameters_from_node_tree (parameters : List SchemaEntry) :
    List (String × BoundParameter) :=
  parameters.foldl (fun registry p => add_parameter registry (bindEntry p)) []

/-- Modelled from the spec: the qcodes `Parameter.set` path (framework code,
not among this repository's sources) — the attached validator, when present,
accepts or rejects the value before any session write is issued; on
acceptance the bound setter runs, issuing its write calls. -/
def parameter_set (bp : BoundParameter) (value : Int) :
    Except String (List (DaqWrite Int)) :=
  let accepted := match bp.vals with
    | some keys => keys.contains value
    | none => true
  if accepted then
    Except.ok (match bp.set_cmd with
      | some (node, typ) => _setter node typ value
      | none => [])
  else Except.error "validation failed"

/-! ## Python string primitives used by `generate_csv_sequence_program` -/

/-- Python's `str.replace(old, new)`: scan left to right, replacing
non-overlapping occurrences of `old`; replaced text is not rescanned.
(Faithful for non-empty `old`, the only way the source uses it.) -/
def pyReplace (old new : List Char) : List Char → List Char
  | [] => []
  | c :: rest =>
    if old.isPrefixOf (c :: rest) then
      new ++ pyReplace old new (List.drop (old.length - 1) rest)
    else
      c :: pyReplace old new rest
termination_by s => s.length
decreasing_by
  · simp [List.length_drop]
    omega
  · simp

/-- `str.replace` on `String`s. -/
def pyReplaceS (s old new : String) : String :=
  ⟨pyReplace old.data new.data s.data⟩

/-- Python's `str.format(*args)` for templates whose only replacement fields
are auto-numbered `{}` pairs: a single left-to-right pass substitutes the
positional arguments in order (substituted text is not rescanned); running
out of arguments is the `IndexError` Python raises, modelled as `none`. -/
def pyFormat : List Char → List String → Option (List Char)
  | [], _ => some []
  | '\x7b' :: '\x7d' :: rest, a :: args =>
    (fun t => a.data ++ t) <$> pyFormat rest args
  | '\x7b' :: '\x7d' :: _, [] => none
  | c :: rest, args => (fun t => c :: t) <$> pyFormat rest args

/-- Python's string repetition `s * n`. -/
def strRepeat (s : String) : Nat → String
  | 0 => ""
  | n + 1 => s ++ strRepeat s n

/-! ## Sequence program generation (`generate_csv_sequence_program`) -/

/-- The module's `__name__`, interpolated into the generated header comment
(modelled as the module file's stem). -/
def module_name : String := "ZIHDAWG8"

/-- The `textwrap.dedent`-ed program template literal from the source: the
common 12-space margin is removed and the whitespace-only first and last
lines are normalized. -/
def awg_program_template : String :=
  "\nHEADER\nwhile(true)\x7b\n    playWave(WAVES);\n\x7d\n"

/-- `generate_csv_sequence_program` from the source: substitute the header
comment for `HEADER`, build the `playWave` argument string — quoted wave
names when no channel list is given (`('"{}"'*n).replace('""', '", "')`),
channel/name pairs otherwise (`('{}, "{}"'*n).replace('}"{', '}", {')`,
formatted with the interleaved `zip(channels, wave_names)` values) — and
substitute it for `WAVES`.  `none` models the `IndexError` raised when
`format` runs out of arguments (fewer channels than wave names). -/
def generate_csv_sequence_program (wave_names : List String)
    (channels : Option (List Int)) : Option String :=
  let awg_program := awg_program_template
  let sequence_header := "// generated by " ++ module_name ++ "\n"
  let awg_program := pyReplaceS awg_program "HEADER" sequence_header
  let waves? : Option String :=
    match channels with
    | none =>
      let argument_string :=
        pyReplaceS (strRepeat "\"\x7b\x7d\"" wave_names.length) "\"\"" "\", \""
      (pyFormat argument_string.data wave_names).map (fun cs => (⟨cs⟩ : String))
    | some chs =>
      let argument_string :=
        pyReplaceS (strRepeat "\x7b\x7d, \"\x7b\x7d\"" wave_names.length)
          "\x7d\"\x7b" "\x7d\", \x7b"
      let args := (List.zip chs wave_names).flatMap
        (fun p => [toString p.1, p.2])
      (pyFormat argument_string.data args).map (fun cs => (⟨cs⟩ : String))
  waves?.map (fun waves => pyReplaceS awg_program "WAVES" waves)

/-- The program template after the HEADER substitution. -/
def headerized : List Char :=
  "\n// generated by ZIHDAWG8\n\nwhile(true)\x7b\n    playWave(WAVES);\n\x7d\n".data

/-- The generated program text as a function of the `playWave` argument
string: header comment, blank line, and a `while(true)` loop around
`playWave(...)`. -/
def program_text (waves : String) : String :=
  "\n// generated by " ++ module_name ++ "\n\nwhile(true)\x7b\n    playWave(" ++
    waves ++ ");\n\x7d\n"

/-- The suffix shape of the no-channels argument template after the `'""' ->
'", "'` replacement, for `n` remaining wave-name placeholders. -/
def quotedTail : Nat → List Char
  | 0 => ['"']
  | n + 1 => '"' :: ',' :: ' ' :: '"' :: '\x7b' :: '\x7d' :: quotedTail n

/-- The filled-in suffix: each placeholder replaced by its wave name. -/
def quotedTailFilled : List String → List Char
  | [] => ['"']
  | x :: xs => '"' :: ',' :: ' ' :: '"' :: (x.data ++ quotedTailFilled xs)

/-- The suffix shape of the channels argument template after the `'}"{' ->
'}", {'` replacement, for `m` remaining channel/name pair placeholders. -/
def chanTail : Nat → List Char
  | 0 => ['\x7d', '"']
  | m + 1 => '\x7d' :: '"' :: ',' :: ' ' :: '\x7b' ::
      '\x7d' :: ',' :: ' ' :: '"' :: '\x7b' :: chanTail m

/-- `chanTail` with its leading `'}'` removed (the format scanner pairs that
brace with the `'{'` that precedes it in the template). -/
def chanTailAfter : Nat → List Char
  | 0 => ['"']
  | m + 1 => '"' :: ',' :: ' ' :: '\x7b' ::
      '\x7d' :: ',' :: ' ' :: '"' :: '\x7b' :: chanTail m

/-- The filled-in channels suffix: each channel/name placeholder pair
replaced by its values. -/
def chanFilled : List (Int × String) → List Char
  | [] => ['"']
  | (c, w) :: ps => '"' :: ',' :: ' ' :: ((toString c).data ++
      (',' :: ' ' :: '"' :: (w.data ++ chanFilled ps)))

/-! ## Waveform CSV export (`waveform_to_csv`) -/

/-- The filesystem as `waveform_to_csv` sees it: the set of existing
directories and the files written, each file holding its list of rows. -/
structure FileSystem where
  dirs : List String
  files : List (String × List String)
  deriving DecidableEq, Repr

/-- One round of Python's `zip`: the heads and tails of every list, or
`none` as soon as one list is exhausted. -/
def headsTails : List (List α) → Option (List α × List (List α))
  | [] => some ([], [])
  | [] :: _ => none
  | (a :: as) :: rest =>
    match headsTails rest with
    | none => none
    | some (hs, ts) => some (a :: hs, as :: ts)

/-- The rounds of `zip(*(w :: rest))`: each round takes one element from
every list, stopping as soon as any list is exhausted. -/
def zipRounds : List α → List (List α) → List (List α)
  | [], _ => []
  | a :: as, rest =>
    match headsTails rest with
    | none => []
    | some (hs, ts) => (a :: hs) :: zipRounds as ts

/-- Python's `zip(*waveforms)` as a list of rows: `zip()` with no iterables
yields nothing; otherwise rows are produced until the shortest list is
exhausted. -/
def pyZip : List (List α) → List (List α)
  | [] => []
  | w :: rest => zipRounds w rest

/-- The number of rows `zip(*waveforms)` yields: the minimum of the lengths
(0 when there are no waveforms). -/
def minLen : List (List α) → Nat
  | [] => 0
  | w :: rest => rest.foldl (fun m l => Nat.min m l.length) w.length

/-- `waveform_to_csv`: check that the `awg/waves` subdirectory of the module
working directory exists (raising otherwise, with no file touched), then
write one semicolon-joined row per `zip` round of the waveforms to
`<wave_dir>/<wave_name>.csv`.  Waveform samples are modelled as their
rendered field strings.  Returns the updated filesystem and the outcome. -/
def waveform_to_csv (fs : FileSystem) (data_dir wave_name : String)
    (waveforms : List (List String)) : FileSystem × Except String Unit :=
  let wave_dir := data_dir ++ "/awg/waves"
  if (fs.dirs.contains wave_dir) = false then
    (fs, Except.error
      ("AWG module wave directory " ++ wave_dir ++
       " does not exist or is not a directory"))
  else
    let csv_file := wave_dir ++ "/" ++ wave_name ++ ".csv"
    let rows := (pyZip waveforms).map (fun row => ";".intercalate row)
    ({ fs with files := (csv_file, rows) :: fs.files }, Except.ok ())

/-! ## Theorems -/

/-- C3: for every slash-delimited node path the derived parameter name drops
the first two path segments and joins the rest with underscores, lower-cased
(the source derivation agrees with the spec's wording on every path), and in
particular `"/dev1234/sigouts/0/on"` derives `"sigouts_0_on"`. -/
theorem generate_parameter_name_correct :
    (∀ node, generate_parameter_name node = derivedNameSpec node) ∧
    generate_parameter_name "/dev1234/sigouts/0/on" = "sigouts_0_on" := by
  refine ⟨fun node => rfl, ?_⟩
  rfl

/-- C7: for every node path and value, an unrecognized declared type makes
the setter issue no session write and the getter issue no session read and
return nothing; no error is raised (both functions are total). -/
theorem unknown_type_noop {α : Type} (name param_type : String) (value : α)
    (h1 : param_type ≠ "Integer (64 bit)")
    (h2 : param_type ≠ "Integer (enumerated)")
    (h3 : param_type ≠ "Double")
    (h4 : param_type ≠ "String")
    (h5 : param_type ≠ "ZIVectorData") :
    _setter name param_type value = [] ∧ _getter name param_type = none := by
  unfold _setter _getter
  simp [h1, h2, h3, h4, h5]

/-- Witness for C7 at the concrete unrecognized type `"Foo"`. -/
theorem unknown_type_noop_witness :
    _setter "/dev1234/foo" "Foo" (0 : Int) = [] ∧
    _getter "/dev1234/foo" "Foo" = none :=
  unknown_type_noop "/dev1234/foo" "Foo" (0 : Int)
    (by decide) (by decide) (by decide) (by decide) (by decide)

/-- C2: in every run whose compiler status reads the failure code 1 right
after the in-progress polling loop exits, `upload_sequence_program` raises
an exception carrying the compiler status string, and issues zero progress
reads (the conclusion holds for every progress trace, so progress polling is
never reached). -/
theorem upload_failure_raises (statusReads : List Int) (statusstring : String)
    (progressReads : List ℚ) (rest : List Int)
    (h : pollUntilNotSentinel statusReads = some (1 :: rest)) :
    upload_sequence_program statusReads statusstring progressReads =
      some (Except.error statusstring, 0) := by
  unfold upload_sequence_program
  rw [h]
  simp

/-- Witness for C2: after sentinel read `-1` and loop-exit read `0`, the
post-loop status read is `1`; the run raises `"err"` with no progress read
issued. -/
theorem upload_failure_raises_witness :
    upload_sequence_program [-1, 0, 1] "err" [(1 : ℚ) / 2] =
      some (Except.error "err", 0) :=
  upload_failure_raises [-1, 0, 1] "err" [(1 : ℚ) / 2] [] (by decide)

/-- C1 counterexample: in the run whose compiler status reads are `[1, 1]`
(the status is 1 — the value the claim calls success-with-warnings — both
when the in-progress loop stops and at the post-loop check),
`upload_sequence_program` raises the compiler status string instead of
returning 1; progress polling is never reached. -/
theorem upload_warning_counterexample :
    upload_sequence_program [1, 1] "compiler warning" [(1 : ℚ)] =
      some (Except.error "compiler warning", 0) := rfl

/-- C1 (amended): status 1 after the in-progress loop raises instead of
returning; in every run whose post-loop status read is not 1, after progress
polling completes the function returns the compiler status code read once
more after the progress loop — in particular a clean-success run returns 0. -/
theorem upload_returns_final_status (statusReads : List Int)
    (statusstring : String) (progressReads : List ℚ) (s c : Int)
    (rest : List Int) (k : Nat)
    (h1 : pollUntilNotSentinel statusReads = some (s :: c :: rest))
    (h2 : s ≠ 1)
    (h3 : pollProgressCount progressReads = some k) :
    upload_sequence_program statusReads statusstring progressReads =
      some (Except.ok c, k) := by
  unfold upload_sequence_program
  rw [h1]
  simp [h2, h3]

/-- Witness for the amended C1: a clean-success run (status reads all 0,
progress reaches 1.0 at once) returns code 0. -/
theorem upload_returns_final_status_witness :
    upload_sequence_program [0, 0, 0] "" [(1 : ℚ)] =
      some (Except.ok 0, 1) :=
  upload_returns_final_status [0, 0, 0] "" [(1 : ℚ)] 0 0 [] 1
    (by decide) (by decide) (by decide)

/-- C4: for every schema entry, the binder binds a getter iff the entry's
`Properties` string contains `"Read"` (readable) and a setter iff it
contains `"Write"` (writable); otherwise the respective accessor is absent. -/
theorem bind_getter_setter_iff (p : SchemaEntry) :
    (bindEntry p).2.get_cmd.isSome = containsStr p.Properties "Read" ∧
    (bindEntry p).2.set_cmd.isSome = containsStr p.Properties "Write" := by
  unfold bindEntry
  constructor
  · by_cases h : containsStr p.Properties "Read" <;> simp [h]
  · by_cases h : containsStr p.Properties "Write" <;> simp [h]

/-- C5: for every schema entry of the enumerated-integer declared type the
binder attaches a validator accepting exactly the integer keys of the
entry's `Options` mapping, no validator is attached for any other declared
type, and setting a value outside the enumerated key set fails validation
with no session write call issued. -/
theorem enum_validator_rejects (p : SchemaEntry) (value : Int)
    (he : p.Typ = "Integer (enumerated)")
    (hv : value ∉ p.Options.map Prod.fst) :
    (bindEntry p).2.vals = some (p.Options.map Prod.fst) ∧
    (∀ q : SchemaEntry, q.Typ ≠ "Integer (enumerated)" →
      (bindEntry q).2.vals = none) ∧
    parameter_set (bindEntry p).2 value = Except.error "validation failed" := by
  refine ⟨?_, ?_, ?_⟩
  · unfold bindEntry
    simp [he]
  · intro q hq
    unfold bindEntry
    simp [hq]
  · unfold parameter_set bindEntry
    simp [he, hv]

/-- Witness for C5: an enumerated entry with keys `{0, 1}` rejects the
out-of-set value 5 before any write call. -/
theorem enum_validator_rejects_witness :
    (bindEntry ⟨"/dev1234/sigouts/0/on", "Integer (enumerated)",
        "Read, Write, Setting", [(0, "off"), (1, "on")], "d", ""⟩).2.vals =
      some [0, 1] ∧
    (∀ q : SchemaEntry, q.Typ ≠ "Integer (enumerated)" →
      (bindEntry q).2.vals = none) ∧
    parameter_set (bindEntry ⟨"/dev1234/sigouts/0/on", "Integer (enumerated)",
        "Read, Write, Setting", [(0, "off"), (1, "on")], "d", ""⟩).2 5 =
      Except.error "validation failed" :=
  enum_validator_rejects _ 5 (by decide) (by decide)

/-- C9: whenever the `awg/waves` subdirectory of the module working
directory does not exist, `waveform_to_csv` fails with a message naming the
missing directory and leaves the filesystem untouched (the directory check
precedes any file open). -/
theorem waveform_to_csv_missing_dir (fs : FileSystem)
    (data_dir wave_name : String) (waveforms : List (List String))
    (h : fs.dirs.contains (data_dir ++ "/awg/waves") = false) :
    waveform_to_csv fs data_dir wave_name waveforms =
      (fs, Except.error ("AWG module wave directory " ++
        (data_dir ++ "/awg/waves") ++
        " does not exist or is not a directory")) := by
  unfold waveform_to_csv
  simp only [h]
  simp

/-- Witness for C9 on an empty filesystem. -/
theorem waveform_to_csv_missing_dir_witness :
    waveform_to_csv ⟨[], []⟩ "/data" "w" [["0.1"]] =
      (⟨[], []⟩, Except.error ("AWG module wave directory " ++
        ("/data" ++ "/awg/waves") ++
        " does not exist or is not a directory")) :=
  waveform_to_csv_missing_dir ⟨[], []⟩ "/data" "w" [["0.1"]] (by decide)

/-- Registering under key `k` makes `k` look up the new binding, whatever
the registry held before. -/
theorem lookup_add_parameter_self (reg : List (String × BoundParameter))
    (k : String) (v : BoundParameter) :
    List.lookup k (add_parameter reg (k, v)) = some v := by
  induction reg with
  | nil => simp [add_parameter, List.lookup]
  | cons head rest ih =>
    obtain ⟨k', v'⟩ := head
    by_cases hk : k' = k
    · subst hk
      simp [add_parameter, List.lookup]
    · have hbeq : (k == k') = false := by
        simp [Ne.symm hk]
      simp [add_parameter, hk, List.lookup, hbeq, ih]

/-- Registering under a different key leaves `k`'s binding unchanged. -/
theorem lookup_add_parameter_other (reg : List (String × BoundParameter))
    (kv : String × BoundParameter) (k : String) (h : kv.1 ≠ k) :
    List.lookup k (add_parameter reg kv) = List.lookup k reg := by
  have hbeq : (k == kv.1) = false := by
    simp [Ne.symm h]
  induction reg with
  | nil => simp [add_parameter, List.lookup, hbeq]
  | cons head rest ih =>
    obtain ⟨k', v'⟩ := head
    by_cases hk : k' = kv.1
    · subst hk
      simp [add_parameter, List.lookup, hbeq]
    · simp [add_parameter, hk, List.lookup, ih]

/-- C8: derived-name collisions are not deduplicated or rejected — binding
always completes, and for every schema list split as `es1 ++ e :: es2` where
no entry after `e` derives `e`'s name, the registered accessor under `e`'s
derived name is the one built from `e`; in particular the last-processed
colliding entry silently overwrites every earlier binding. -/
theorem last_colliding_entry_wins (es1 : List SchemaEntry) (e : SchemaEntry)
    (es2 : List SchemaEntry)
    (h : ∀ e' ∈ es2,
      generate_parameter_name e'.Node ≠ generate_parameter_name e.Node) :
    List.lookup (generate_parameter_name e.Node)
        (create_parameters_from_node_tree (es1 ++ e :: es2)) =
      some (bindEntry e).2 := by
  unfold create_parameters_from_node_tree
  rw [List.foldl_append]
  have preserve : ∀ (l : List SchemaEntry)
      (acc : List (String × BoundParameter)),
      (∀ e' ∈ l,
        generate_parameter_name e'.Node ≠ generate_parameter_name e.Node) →
      List.lookup (generate_parameter_name e.Node) acc =
        some (bindEntry e).2 →
      List.lookup (generate_parameter_name e.Node)
          (l.foldl (fun registry p => add_parameter registry (bindEntry p))
            acc) =
        some (bindEntry e).2 := by
    intro l
    induction l with
    | nil => intro acc _ hacc; simpa using hacc
    | cons e' l' ih =>
      intro acc hl hacc
      simp only [List.foldl_cons]
      refine ih _ (fun x hx => hl x (List.mem_cons_of_mem _ hx)) ?_
      rw [lookup_add_parameter_other _ _ _
        (hl e' (List.mem_cons_self _ _))]
      exact hacc
  simp only [List.foldl_cons]
  refine preserve es2 _ h ?_
  exact lookup_add_parameter_self _ _ _

/-- Witness for C8: two entries with the same node path (hence the same
derived name `sigouts_0_on`) — the registry binds the name to the parameter
built from the second, later-processed entry. -/
theorem last_colliding_entry_wins_witness :
    List.lookup (generate_parameter_name "/dev1234/sigouts/0/on")
        (create_parameters_from_node_tree
          [⟨"/dev1234/sigouts/0/on", "Double", "Read", [], "first", "V"⟩,
           ⟨"/dev1234/sigouts/0/on", "Double", "Read, Write", [], "second",
             "V"⟩]) =
      some (bindEntry ⟨"/dev1234/sigouts/0/on", "Double", "Read, Write", [],
        "second", "V"⟩).2 :=
  last_colliding_entry_wins
    [⟨"/dev1234/sigouts/0/on", "Double", "Read", [], "first", "V"⟩]
    ⟨"/dev1234/sigouts/0/on", "Double", "Read, Write", [], "second", "V"⟩
    [] (by simp)

/-- A `none` from `headsTails` means some list was already exhausted. -/
theorem headsTails_none {α : Type} {ws : List (List α)}
    (h : headsTails ws = none) : ∃ l ∈ ws, l = [] := by
  induction ws with
  | nil => simp [headsTails] at h
  | cons w rest ih =>
    cases w with
    | nil => exact ⟨[], List.mem_cons_self _ _, rfl⟩
    | cons a as =>
      cases hrest : headsTails rest with
      | none =>
        obtain ⟨l, hl, hleq⟩ := ih hrest
        exact ⟨l, List.mem_cons_of_mem _ hl, hleq⟩
      | some p =>
        simp [headsTails, hrest] at h

/-- When `headsTails` succeeds, it returns the heads of the lists, the tails
index-shift the elements, and every list's length drops by one. -/
theorem headsTails_some {α : Type} (d : α) :
    ∀ {ws : List (List α)} {hs : List α} {ts : List (List α)},
    headsTails ws = some (hs, ts) →
    ws.map (fun l => l.getD 0 d) = hs ∧
    (∀ i, ws.map (fun l => l.getD (i + 1) d) = ts.map (fun l => l.getD i d)) ∧
    ws.map List.length = ts.map (fun l => l.length + 1) := by
  intro ws
  induction ws with
  | nil =>
    intro hs ts h
    simp [headsTails] at h
    obtain ⟨h1, h2⟩ := h
    subst h1; subst h2
    simp
  | cons w rest ih =>
    intro hs ts h
    cases w with
    | nil => simp [headsTails] at h
    | cons a as =>
      cases hrest : headsTails rest with
      | none => simp [headsTails, hrest] at h
      | some p =>
        obtain ⟨hs', ts'⟩ := p
        simp [headsTails, hrest] at h
        obtain ⟨h1, h2⟩ := h
        subst h1; subst h2
        obtain ⟨ih1, ih2, ih3⟩ := ih hrest
        refine ⟨?_, ?_, ?_⟩
        · simp only [List.map_cons, ih1, List.getD_cons_zero]
        · intro i
          simp only [List.map_cons, ih2 i, List.getD_cons_succ]
        · simp only [List.map_cons, ih3, List.length_cons]

/-- A left fold of `Nat.min` never exceeds its initial value. -/
theorem foldl_min_le_init : ∀ (ns : List Nat) (n : Nat),
    ns.foldl Nat.min n ≤ n := by
  intro ns
  induction ns with
  | nil => simp
  | cons m ms ih =>
    intro n
    calc ms.foldl Nat.min (Nat.min n m) ≤ Nat.min n m := ih _
    _ ≤ n := Nat.min_le_left _ _

/-- A left fold of `Nat.min` never exceeds any list element. -/
theorem foldl_min_le_mem : ∀ (ns : List Nat) (n m : Nat), m ∈ ns →
    ns.foldl Nat.min n ≤ m := by
  intro ns
  induction ns with
  | nil => intro n m h; simp at h
  | cons k ks ih =>
    intro n m h
    rcases List.mem_cons.mp h with h1 | h2
    · subst h1
      calc ks.foldl Nat.min (Nat.min n m) ≤ Nat.min n m :=
        foldl_min_le_init _ _
      _ ≤ m := Nat.min_le_right _ _
    · exact ih _ _ h2

/-- A `Nat.min` fold commutes with adding one everywhere. -/
theorem foldl_min_succ : ∀ (ns : List Nat) (n : Nat),
    (ns.map (· + 1)).foldl Nat.min (n + 1) = ns.foldl Nat.min n + 1 := by
  intro ns
  induction ns with
  | nil => intro n; simp
  | cons m ms ih =>
    intro n
    simp only [List.map_cons, List.foldl_cons]
    have hmin : Nat.min (n + 1) (m + 1) = Nat.min n m + 1 := by
      simp only [Nat.min_def]
      split <;> split <;> omega
    rw [hmin, ih]

/-- `minLen` as a fold of `Nat.min` over the lengths. -/
theorem minLen_cons {α : Type} (w : List α) (rest : List (List α)) :
    minLen (w :: rest) = (rest.map List.length).foldl Nat.min w.length := by
  unfold minLen
  rw [List.foldl_map]

/-- On a non-empty list of lists, `minLen` is the minimum of the lengths. -/
theorem minLen_min? {α : Type} (w : List α) (rest : List (List α)) :
    ((w :: rest).map List.length).min? = some (minLen (w :: rest)) := by
  rw [minLen_cons]
  rfl

/-- The rounds of `zip` on `w :: rest` are exactly the first
`minLen (w :: rest)` index slices, each row taking the i-th element of every
list in order. -/
theorem zipRounds_eq {α : Type} (d : α) :
    ∀ (w : List α) (rest : List (List α)),
    zipRounds w rest =
      (List.range (minLen (w :: rest))).map
        (fun i => (w :: rest).map (fun l => l.getD i d)) := by
  intro w
  induction w with
  | nil =>
    intro rest
    have h0 : minLen ([] :: rest) = 0 := by
      rw [minLen_cons]
      exact Nat.le_zero.mp (foldl_min_le_init _ _)
    simp [zipRounds, h0]
  | cons a as ih =>
    intro rest
    cases hrest : headsTails rest with
    | none =>
      obtain ⟨l, hl, hleq⟩ := headsTails_none hrest
      have h0 : minLen ((a :: as) :: rest) = 0 := by
        rw [minLen_cons]
        refine Nat.le_zero.mp (foldl_min_le_mem _ _ _ ?_)
        exact List.mem_map.mpr ⟨l, hl, by simp [hleq]⟩
      simp [zipRounds, hrest, h0]
    | some p =>
      obtain ⟨hs, ts⟩ := p
      obtain ⟨hh1, hh2, hh3⟩ := headsTails_some d hrest
      have hmin : minLen ((a :: as) :: rest) = minLen (as :: ts) + 1 := by
        rw [minLen_cons, minLen_cons, hh3]
        have hcomp : ts.map (fun l => l.length + 1) =
            (ts.map List.length).map (· + 1) := by
          simp [List.map_map]
        rw [hcomp]
        exact foldl_min_succ (ts.map List.length) as.length
      have hstep : zipRounds (a :: as) rest = (a :: hs) :: zipRounds as ts := by
        simp [zipRounds, hrest]
      rw [hstep, hmin, List.range_succ_eq_map, List.map_cons, ih ts]
      congr 1
      · simp only [List.map_cons, List.getD_cons_zero, hh1]
      · rw [List.map_map]
        refine List.map_congr_left ?_
        intro i _
        simp only [Function.comp_apply, List.map_cons, List.getD_cons_succ]
        rw [hh2 i]

/-- C10: for every non-empty list of waveforms (of possibly unequal
lengths) and existing wave directory, `waveform_to_csv` writes exactly
`minLen` rows — the minimum of the waveform lengths — where row `i` is the
semicolon-joined list of the i-th sample of each waveform in argument
order; samples beyond the shortest waveform are dropped. -/
theorem waveform_to_csv_zip_rows (fs : FileSystem) (data_dir wave_name : String)
    (w : List String) (rest : List (List String))
    (hdir : fs.dirs.contains (data_dir ++ "/awg/waves") = true) :
    waveform_to_csv fs data_dir wave_name (w :: rest) =
      ({ fs with files :=
          (data_dir ++ "/awg/waves" ++ "/" ++ wave_name ++ ".csv",
           (List.range (minLen (w :: rest))).map
             (fun i => ";".intercalate
               ((w :: rest).map (fun l => l.getD i "")))) ::
          fs.files },
       Except.ok ()) ∧
    ((w :: rest).map List.length).min? = some (minLen (w :: rest)) := by
  refine ⟨?_, minLen_min? w rest⟩
  unfold waveform_to_csv
  simp only [hdir, Bool.true_eq_false, if_false]
  have hrows : pyZip (w :: rest) = zipRounds w rest := rfl
  rw [hrows, zipRounds_eq "", List.map_map]
  rfl

/-- Witness for C10: waveforms of lengths 3 and 2 produce exactly the two
rows `0.1;-0.1` and `0.2;-0.2`; the third sample of the longer waveform is
dropped. -/
theorem waveform_to_csv_zip_rows_witness :
    waveform_to_csv ⟨["/data/awg/waves"], []⟩ "/data" "w"
        [["0.1", "0.2", "0.3"], ["-0.1", "-0.2"]] =
      ({ dirs := ["/data/awg/waves"],
         files := [("/data/awg/waves/w.csv", ["0.1;-0.1", "0.2;-0.2"])] },
       Except.ok ()) ∧
    ([["0.1", "0.2", "0.3"], ["-0.1", "-0.2"]].map List.length).min? =
      some (minLen [["0.1", "0.2", "0.3"], ["-0.1", "-0.2"]]) := by
  exact waveform_to_csv_zip_rows ⟨["/data/awg/waves"], []⟩ "/data" "w"
    ["0.1", "0.2", "0.3"] [["-0.1", "-0.2"]] (by decide)

theorem pyReplace_nil (old new : List Char) : pyReplace old new [] = [] := by
  rw [pyReplace]

theorem pyReplace_pos (old new : List Char) (c : Char) (rest : List Char)
    (h : old.isPrefixOf (c :: rest) = true) :
    pyReplace old new (c :: rest) =
      new ++ pyReplace old new (List.drop (old.length - 1) rest) := by
  rw [pyReplace]
  simp [h]

theorem pyReplace_neg (old new : List Char) (c : Char) (rest : List Char)
    (h : old.isPrefixOf (c :: rest) = false) :
    pyReplace old new (c :: rest) = c :: pyReplace old new rest := by
  rw [pyReplace]
  simp [h]

theorem pyReplace_not_occur (old new : List Char) :
    ∀ (s : List Char), (∀ i < s.length, old.isPrefixOf (s.drop i) = false) →
    pyReplace old new s = s := by
  intro s
  induction s with
  | nil => intro _; exact pyReplace_nil old new
  | cons c rest ih =>
    intro h
    have h0 : old.isPrefixOf (c :: rest) = false := by
      simpa using h 0 (by simp)
    rw [pyReplace_neg _ _ _ _ h0, ih ?_]
    intro i hi
    have hstep := h (i + 1) (by simpa using Nat.succ_lt_succ hi)
    simpa [List.drop_succ_cons] using hstep

theorem pyReplace_splice (old new S : List Char) (o : Char) (os : List Char)
    (hold : old = o :: os) :
    ∀ (P : List Char),
    (∀ i < P.length, old.isPrefixOf ((P ++ (old ++ S)).drop i) = false) →
    pyReplace old new (P ++ (old ++ S)) = P ++ (new ++ pyReplace old new S) := by
  intro P
  induction P with
  | nil =>
    intro _
    subst hold
    simp only [List.nil_append, List.cons_append]
    have hpre : (o :: os).isPrefixOf (o :: (os ++ S)) = true := by
      rw [List.isPrefixOf_iff_prefix]
      exact (List.prefix_append (o :: os) S).trans (by simp)
    rw [pyReplace_pos _ _ _ _ hpre]
    simp [List.drop_left]
  | cons p P' ih =>
    intro hP
    have h0 : old.isPrefixOf (p :: (P' ++ (old ++ S))) = false := by
      simpa using hP 0 (by simp)
    have harg : ∀ i < P'.length,
        old.isPrefixOf (List.drop i (P' ++ (old ++ S))) = false := by
      intro i hi
      have hstep := hP (i + 1) (by simp; omega)
      simpa [List.cons_append, List.drop_succ_cons] using hstep
    rw [List.cons_append, pyReplace_neg _ _ _ _ h0, ih harg]
    simp

theorem header_sub :
    (pyReplaceS awg_program_template "HEADER"
      ("// generated by " ++ module_name ++ "\n")).data = headerized := by
  show pyReplace "HEADER".data ("// generated by " ++ module_name ++ "\n").data
      awg_program_template.data = headerized
  rw [show awg_program_template.data =
      ['\n'] ++ ("HEADER".data ++
        "\nwhile(true)\x7b\n    playWave(WAVES);\n\x7d\n".data) from rfl]
  rw [pyReplace_splice _ _ _ 'H' "EADER".data rfl _ (by decide)]
  rw [pyReplace_not_occur _ _ _ (by decide)]
  rfl

theorem waves_sub (waves : String) :
    pyReplace "WAVES".data waves.data headerized =
      "\n// generated by ZIHDAWG8\n\nwhile(true)\x7b\n    playWave(".data ++
        (waves.data ++ ");\n\x7d\n".data) := by
  rw [show headerized =
      "\n// generated by ZIHDAWG8\n\nwhile(true)\x7b\n    playWave(".data ++
        ("WAVES".data ++ ");\n\x7d\n".data) from rfl]
  rw [pyReplace_splice _ _ _ 'W' "AVES".data rfl _ (by decide)]
  rw [pyReplace_not_occur _ _ _ (by decide)]

theorem strRepeat_quote_data (n : Nat) :
    (strRepeat "\"\x7b\x7d\"" (n + 1)).data =
      '"' :: '\x7b' :: '\x7d' :: '"' :: (strRepeat "\"\x7b\x7d\"" n).data := by
  show ("\"\x7b\x7d\"" ++ strRepeat "\"\x7b\x7d\"" n).data = _
  rw [String.data_append]
  rfl

theorem quote_tail_replace : ∀ (n : Nat),
    pyReplace ['"', '"'] ['"', ',', ' ', '"']
      ('"' :: (strRepeat "\"\x7b\x7d\"" n).data) = quotedTail n := by
  intro n
  induction n with
  | zero =>
    rw [show (strRepeat "\"\x7b\x7d\"" 0).data = [] from rfl]
    rw [pyReplace_neg _ _ _ _ (by decide), pyReplace_nil]
    rfl
  | succ n ih =>
    rw [strRepeat_quote_data]
    rw [pyReplace_pos _ _ _ _ (by simp [List.isPrefixOf])]
    simp only [List.length_cons, List.length_nil, Nat.add_sub_cancel,
      List.drop_succ_cons, List.drop_zero]
    rw [pyReplace_neg _ _ _ _ (by simp [List.isPrefixOf]),
      pyReplace_neg _ _ _ _ (by simp [List.isPrefixOf]), ih]
    rfl

theorem quote_template_replace (n : Nat) :
    pyReplace ['"', '"'] ['"', ',', ' ', '"']
      (strRepeat "\"\x7b\x7d\"" (n + 1)).data =
      '"' :: '\x7b' :: '\x7d' :: quotedTail n := by
  rw [strRepeat_quote_data]
  rw [pyReplace_neg _ _ _ _ (by simp [List.isPrefixOf]),
    pyReplace_neg _ _ _ _ (by simp [List.isPrefixOf]),
    pyReplace_neg _ _ _ _ (by simp [List.isPrefixOf])]
  rw [quote_tail_replace]

theorem pyFormat_quote (rest : List Char) (args : List String) :
    pyFormat ('"' :: rest) args =
      (pyFormat rest args).map (fun t => '"' :: t) := rfl

theorem pyFormat_comma (rest : List Char) (args : List String) :
    pyFormat (',' :: rest) args =
      (pyFormat rest args).map (fun t => ',' :: t) := rfl

theorem pyFormat_space (rest : List Char) (args : List String) :
    pyFormat (' ' :: rest) args =
      (pyFormat rest args).map (fun t => ' ' :: t) := rfl

theorem pyFormat_sub (rest : List Char) (a : String) (args : List String) :
    pyFormat ('\x7b' :: '\x7d' :: rest) (a :: args) =
      (pyFormat rest args).map (fun t => a.data ++ t) := rfl

theorem quoted_tail_format : ∀ (xs : List String),
    pyFormat (quotedTail xs.length) xs = some (quotedTailFilled xs) := by
  intro xs
  induction xs with
  | nil => rfl
  | cons x xs ih =>
    show pyFormat ('"' :: ',' :: ' ' :: '"' :: '\x7b' :: '\x7d' ::
      quotedTail xs.length) (x :: xs) = _
    rw [pyFormat_quote, pyFormat_comma, pyFormat_space, pyFormat_quote,
      pyFormat_sub, ih]
    rfl

theorem quote_args_format (w : String) (names : List String) :
    pyFormat ('"' :: '\x7b' :: '\x7d' :: quotedTail names.length)
      (w :: names) = some ('"' :: (w.data ++ quotedTailFilled names)) := by
  rw [pyFormat_quote, pyFormat_sub, quoted_tail_format]
  rfl

theorem intercalate_go_append (s : String) : ∀ (l : List String) (a p : String),
    String.intercalate.go (p ++ a) s l = p ++ String.intercalate.go a s l := by
  intro l
  induction l with
  | nil => intro a p; rfl
  | cons b bs ih =>
    intro a p
    show String.intercalate.go (p ++ a ++ s ++ b) s bs = _
    rw [String.append_assoc, String.append_assoc,
      ← String.append_assoc a s b, ih (a ++ s ++ b) p]
    rfl

theorem intercalate_cons_cons (s a b : String) (l : List String) :
    String.intercalate s (a :: b :: l) =
      (a ++ s) ++ String.intercalate s (b :: l) := by
  show String.intercalate.go (a ++ s ++ b) s l = _
  rw [intercalate_go_append s l b (a ++ s)]
  rfl

/-- The `playWave` argument string of the no-channels branch: the quoted
wave names joined by a comma and space. -/
theorem intercalate_quoted_data : ∀ (names : List String) (w : String),
    (", ".intercalate ((w :: names).map (fun x => "\"" ++ x ++ "\""))).data =
      '"' :: (w.data ++ quotedTailFilled names) := by
  intro names
  induction names with
  | nil =>
    intro w
    show ("\"" ++ w ++ "\"").data = _
    have hq : "\"".data = ['"'] := rfl
    simp [String.data_append, hq, quotedTailFilled]
  | cons x xs ih =>
    intro w
    rw [List.map_cons, List.map_cons, intercalate_cons_cons,
      String.data_append,
      ← List.map_cons (fun x => "\"" ++ x ++ "\"") x xs, ih x]
    have hq : "\"".data = ['"'] := rfl
    have hcs : ", ".data = [',', ' '] := rfl
    simp [String.data_append, hq, hcs, quotedTailFilled]

theorem program_text_data (waves : String) :
    (program_text waves).data =
      "\n// generated by ZIHDAWG8\n\nwhile(true)\x7b\n    playWave(".data ++
        (waves.data ++ ");\n\x7d\n".data) := by
  show ("\n// generated by " ++ module_name ++
      "\n\nwhile(true)\x7b\n    playWave(" ++ waves ++ ");\n\x7d\n").data = _
  rw [String.data_append, String.data_append, String.data_append]
  have hP : "\n// generated by ZIHDAWG8\n\nwhile(true)\x7b\n    playWave(".data
      = ("\n// generated by " ++ module_name).data ++
        "\n\nwhile(true)\x7b\n    playWave(".data := rfl
  rw [hP]
  simp [List.append_assoc]

theorem gcsp_none_cons (w : String) (names : List String) :
    generate_csv_sequence_program (w :: names) none =
      some (program_text
        (", ".intercalate ((w :: names).map (fun x => "\"" ++ x ++ "\"")))) := by
  have hdata : (pyReplaceS (strRepeat "\"\x7b\x7d\"" (w :: names).length)
      "\"\"" "\", \"").data =
      '"' :: '\x7b' :: '\x7d' :: quotedTail names.length := by
    show pyReplace ['"', '"'] ['"', ',', ' ', '"']
      (strRepeat "\"\x7b\x7d\"" (names.length + 1)).data = _
    exact quote_template_replace names.length
  show ((pyFormat (pyReplaceS (strRepeat "\"\x7b\x7d\"" (w :: names).length)
        "\"\"" "\", \"").data (w :: names)).map
      (fun cs => (⟨cs⟩ : String))).map
      (fun waves => pyReplaceS (pyReplaceS awg_program_template "HEADER"
        ("// generated by " ++ module_name ++ "\n")) "WAVES" waves) = _
  rw [hdata, quote_args_format]
  simp only [Option.map_some']
  refine congrArg some (String.ext ?_)
  show pyReplace "WAVES".data
      ((⟨'"' :: (w.data ++ quotedTailFilled names)⟩ : String)).data
      (pyReplaceS awg_program_template "HEADER"
        ("// generated by " ++ module_name ++ "\n")).data = _
  rw [header_sub, waves_sub, program_text_data, intercalate_quoted_data]

theorem chanTail_eq (m : Nat) : chanTail m = '\x7d' :: chanTailAfter m := by
  cases m <;> rfl

theorem strRepeat_chan_data (n : Nat) :
    (strRepeat "\x7b\x7d, \"\x7b\x7d\"" (n + 1)).data =
      '\x7b' :: '\x7d' :: ',' :: ' ' :: '"' :: '\x7b' :: '\x7d' :: '"' ::
        (strRepeat "\x7b\x7d, \"\x7b\x7d\"" n).data := by
  show ("\x7b\x7d, \"\x7b\x7d\"" ++ strRepeat "\x7b\x7d, \"\x7b\x7d\"" n).data = _
  rw [String.data_append]
  rfl

theorem chan_tail_replace : ∀ (m : Nat),
    pyReplace ['\x7d', '"', '\x7b'] ['\x7d', '"', ',', ' ', '\x7b']
      ('\x7d' :: '"' :: (strRepeat "\x7b\x7d, \"\x7b\x7d\"" m).data) =
      chanTail m := by
  intro m
  induction m with
  | zero =>
    rw [show (strRepeat "\x7b\x7d, \"\x7b\x7d\"" 0).data = [] from rfl]
    rw [pyReplace_neg _ _ _ _ (by decide),
      pyReplace_neg _ _ _ _ (by decide), pyReplace_nil]
    rfl
  | succ m ih =>
    rw [strRepeat_chan_data]
    rw [pyReplace_pos _ _ _ _ (by simp [List.isPrefixOf])]
    simp only [List.length_cons, List.length_nil, Nat.add_sub_cancel,
      List.drop_succ_cons, List.drop_zero]
    rw [pyReplace_neg _ _ _ _ (by simp [List.isPrefixOf]),
      pyReplace_neg _ _ _ _ (by simp [List.isPrefixOf]),
      pyReplace_neg _ _ _ _ (by simp [List.isPrefixOf]),
      pyReplace_neg _ _ _ _ (by simp [List.isPrefixOf]),
      pyReplace_neg _ _ _ _ (by simp [List.isPrefixOf]), ih]
    rfl

theorem chan_template_replace (n : Nat) :
    pyReplace ['\x7d', '"', '\x7b'] ['\x7d', '"', ',', ' ', '\x7b']
      (strRepeat "\x7b\x7d, \"\x7b\x7d\"" (n + 1)).data =
      '\x7b' :: '\x7d' :: ',' :: ' ' :: '"' :: '\x7b' :: chanTail n := by
  rw [strRepeat_chan_data]
  rw [pyReplace_neg _ _ _ _ (by simp [List.isPrefixOf]),
    pyReplace_neg _ _ _ _ (by simp [List.isPrefixOf]),
    pyReplace_neg _ _ _ _ (by simp [List.isPrefixOf]),
    pyReplace_neg _ _ _ _ (by simp [List.isPrefixOf]),
    pyReplace_neg _ _ _ _ (by simp [List.isPrefixOf]),
    pyReplace_neg _ _ _ _ (by simp [List.isPrefixOf]),
    chan_tail_replace]

theorem chan_tail_format : ∀ (ps : List (Int × String)),
    pyFormat (chanTailAfter ps.length)
      (ps.flatMap (fun p => [toString p.1, p.2])) = some (chanFilled ps) := by
  intro ps
  induction ps with
  | nil => rfl
  | cons p ps ih =>
    obtain ⟨c, w⟩ := p
    show pyFormat ('"' :: ',' :: ' ' :: '\x7b' ::
        '\x7d' :: ',' :: ' ' :: '"' :: '\x7b' :: chanTail ps.length)
      (toString c :: w :: ps.flatMap (fun p => [toString p.1, p.2])) = _
    rw [pyFormat_quote, pyFormat_comma, pyFormat_space, pyFormat_sub,
      pyFormat_comma, pyFormat_space, pyFormat_quote, chanTail_eq,
      pyFormat_sub, ih]
    rfl

theorem chan_args_format (c : Int) (w : String) (ps : List (Int × String)) :
    pyFormat ('\x7b' :: '\x7d' :: ',' :: ' ' :: '"' :: '\x7b' ::
        chanTail ps.length)
      (toString c :: w :: ps.flatMap (fun p => [toString p.1, p.2])) =
      some ((toString c).data ++
        (',' :: ' ' :: '"' :: (w.data ++ chanFilled ps))) := by
  rw [pyFormat_sub, pyFormat_comma, pyFormat_space, pyFormat_quote,
    chanTail_eq, pyFormat_sub, chan_tail_format]
  rfl

/-- The `playWave` argument string of the channels branch: channel/quoted
name pairs joined by a comma and space. -/
theorem intercalate_chan_data : ∀ (ps : List (Int × String)) (c : Int)
    (w : String),
    (", ".intercalate (((c, w) :: ps).map
      (fun p => toString p.1 ++ ", \"" ++ p.2 ++ "\""))).data =
      (toString c).data ++ (',' :: ' ' :: '"' :: (w.data ++ chanFilled ps)) := by
  intro ps
  induction ps with
  | nil =>
    intro c w
    show (toString c ++ ", \"" ++ w ++ "\"").data = _
    have h1 : ", \"".data = [',', ' ', '"'] := rfl
    have h2 : "\"".data = ['"'] := rfl
    simp [String.data_append, h1, h2, chanFilled]
  | cons p ps ih =>
    intro c w
    obtain ⟨c', w'⟩ := p
    rw [List.map_cons, List.map_cons, intercalate_cons_cons,
      String.data_append,
      ← List.map_cons (fun p => toString p.1 ++ ", \"" ++ p.2 ++ "\"")
        (c', w') ps, ih c' w']
    have h1 : ", \"".data = [',', ' ', '"'] := rfl
    have h2 : "\"".data = ['"'] := rfl
    have h3 : ", ".data = [',', ' '] := rfl
    simp [String.data_append, h1, h2, h3, chanFilled]

theorem gcsp_chans_cons (c : Int) (chs : List Int) (w : String)
    (names : List String) (hlen : chs.length = names.length) :
    generate_csv_sequence_program (w :: names) (some (c :: chs)) =
      some (program_text (", ".intercalate
        (((c :: chs).zip (w :: names)).map
          (fun p => toString p.1 ++ ", \"" ++ p.2 ++ "\"")))) := by
  have hzip : (c :: chs).zip (w :: names) = (c, w) :: chs.zip names := rfl
  have hzlen : (chs.zip names).length = names.length := by
    simp [List.length_zip, hlen]
  have hdata : (pyReplaceS (strRepeat "\x7b\x7d, \"\x7b\x7d\""
      (w :: names).length) "\x7d\"\x7b" "\x7d\", \x7b").data =
      '\x7b' :: '\x7d' :: ',' :: ' ' :: '"' :: '\x7b' ::
        chanTail names.length := by
    show pyReplace ['\x7d', '"', '\x7b'] ['\x7d', '"', ',', ' ', '\x7b']
      (strRepeat "\x7b\x7d, \"\x7b\x7d\"" (names.length + 1)).data = _
    exact chan_template_replace names.length
  show ((pyFormat (pyReplaceS (strRepeat "\x7b\x7d, \"\x7b\x7d\""
        (w :: names).length) "\x7d\"\x7b" "\x7d\", \x7b").data
      (((c :: chs).zip (w :: names)).flatMap
        (fun p => [toString p.1, p.2]))).map
      (fun cs => (⟨cs⟩ : String))).map
      (fun waves => pyReplaceS (pyReplaceS awg_program_template "HEADER"
        ("// generated by " ++ module_name ++ "\n")) "WAVES" waves) = _
  rw [hdata, hzip]
  rw [show ((c, w) :: chs.zip names).flatMap (fun p => [toString p.1, p.2]) =
      toString c :: w ::
        (chs.zip names).flatMap (fun p => [toString p.1, p.2]) from rfl]
  rw [← hzlen, chan_args_format]
  simp only [Option.map_some']
  refine congrArg some (String.ext ?_)
  show pyReplace "WAVES".data
      ((⟨(toString c).data ++ (',' :: ' ' :: '"' ::
        (w.data ++ chanFilled (chs.zip names)))⟩ : String)).data
      (pyReplaceS awg_program_template "HEADER"
        ("// generated by " ++ module_name ++ "\n")).data = _
  rw [header_sub, waves_sub, program_text_data, intercalate_chan_data]

theorem generate_csv_sequence_program_correct
    (wave_names : List String) (channels : List Int)
    (hne : wave_names ≠ []) (hlen : channels.length = wave_names.length) :
    generate_csv_sequence_program wave_names none =
      some (program_text (", ".intercalate
        (wave_names.map (fun x => "\"" ++ x ++ "\"")))) ∧
    generate_csv_sequence_program wave_names (some channels) =
      some (program_text (", ".intercalate
        ((channels.zip wave_names).map
          (fun p => toString p.1 ++ ", \"" ++ p.2 ++ "\"")))) ∧
    (generate_csv_sequence_program ["wave1", "wave2"] none).map
      (fun s => containsStr s "playWave(\"wave1\", \"wave2\")") = some true ∧
    (generate_csv_sequence_program ["wave1", "wave2"] (some [0, 1])).map
      (fun s => containsStr s "playWave(0, \"wave1\", 1, \"wave2\")") =
      some true := by
  obtain ⟨w, names, rfl⟩ : ∃ w names, wave_names = w :: names := by
    cases wave_names with
    | nil => exact absurd rfl hne
    | cons w names => exact ⟨w, names, rfl⟩
  obtain ⟨c, chs, rfl⟩ : ∃ c chs, channels = c :: chs := by
    cases channels with
    | nil => simp at hlen
    | cons c chs => exact ⟨c, chs, rfl⟩
  have hlen' : chs.length = names.length := by simpa using hlen
  refine ⟨gcsp_none_cons w names, gcsp_chans_cons c chs w names hlen', ?_, ?_⟩
  · rw [gcsp_none_cons "wave1" ["wave2"]]
    simp only [Option.map_some']
    decide
  · rw [gcsp_chans_cons 0 [1] "wave1" ["wave2"] rfl]
    simp only [Option.map_some']
    decide

/-- Witness for C6 at wave names `["wave1", "wave2"]` and channels
`[0, 1]`. -/
theorem generate_csv_sequence_program_correct_witness :
    (generate_csv_sequence_program ["wave1", "wave2"] none =
      some (program_text (", ".intercalate
        (["wave1", "wave2"].map (fun x => "\"" ++ x ++ "\""))))) ∧
    (generate_csv_sequence_program ["wave1", "wave2"] (some [0, 1]) =
      some (program_text (", ".intercalate
        (([0, 1].zip ["wave1", "wave2"]).map
          (fun p => toString p.1 ++ ", \"" ++ p.2 ++ "\""))))) ∧
    (generate_csv_sequence_program ["wave1", "wave2"] none).map
      (fun s => containsStr s "playWave(\"wave1\", \"wave2\")") = some true ∧
    (generate_csv_sequence_program ["wave1", "wave2"] (some [0, 1])).map
      (fun s => containsStr s "playWave(0, \"wave1\", 1, \"wave2\")") =
      some true :=
  generate_csv_sequence_program_correct ["wave1", "wave2"] [0, 1]
    (by decide) rfl

end ZIHDAWG8
